import Mathlib

set_option maxRecDepth 4000

/-!
Shallow embedding of `movie_recommender.py` (class `Recommender`): the
in-memory catalog/rating loaders and the ranking engine.

Modelling conventions, used throughout:

* Python `dict`s preserve insertion order; they are embedded as association
  lists.  The loaders only insert keys they have just checked to be absent,
  so `dinsert` appends at the end; `d.setdefault(k, []).append(v)` is
  `dsetdefault`.
* Python floats are modelled by `PyFloat`: NaN, the two infinities, and
  finite values carried exactly as rationals.  IEEE rounding is not
  modelled; none of the verified properties distinguishes a decimal literal
  from its rounded double.
* The file system is abstracted as `Option (List String)`: `none` models a
  missing file (`os.path.exists` returns `False`), `some lines` the raw
  lines of the file.  Console output is ignored.
* Python `list.sort(key=...)` is a stable sort by the key; it is embedded as
  `List.insertionSort` (also stable) over the key order.  In every list the
  program sorts, the keys are pairwise distinct (each row carries its unique
  movie id, resp. genre label), so any sort w.r.t. the key order produces
  the same output and stability is not even needed.
-/

namespace MovieRec

/-- Association-list lookup, modelling Python dict lookup (`d.get(k)`,
`d[k]`, `k in d`).  The embedded dicts never hold a key twice, so
first-match lookup agrees with Python. -/
def alookup {κ β : Type} [DecidableEq κ] : List (κ × β) → κ → Option β
  | [], _ => none
  | (k, v) :: t, q => if k = q then some v else alookup t q

/-- Python `d[k] = v` on a key the caller has checked to be absent:
the new entry is appended at the end (dict insertion order). -/
def dinsert {κ β : Type} (l : List (κ × β)) (k : κ) (v : β) : List (κ × β) :=
  l ++ [(k, v)]

/-- Python `d.setdefault(k, []).append(v)`: append `v` to the list stored at
`k`, creating the entry at the end if `k` is absent. -/
def dsetdefault {κ α : Type} [DecidableEq κ] : List (κ × List α) → κ → α → List (κ × List α)
  | [], k, v => [(k, [v])]
  | (k₀, vs) :: t, k, v =>
      if k₀ = k then (k₀, vs ++ [v]) :: t else (k₀, vs) :: dsetdefault t k v

/-- ASCII whitespace as stripped by Python `str.strip()` with no argument.
(Python also strips some Unicode whitespace; it plays no role in any
verified property.) -/
def isPySpace (c : Char) : Bool :=
  c == ' ' || c == '\t' || c == '\n' || c == '\r' || c == '\x0b' || c == '\x0c'

/-- Python `str.strip()`: drop leading and trailing whitespace.  Implemented
on the character list (same semantics as `String.trim` for this whitespace
set, but reducible by the kernel). -/
def pyStrip (s : String) : String :=
  ⟨((s.data.dropWhile isPySpace).reverse.dropWhile isPySpace).reverse⟩

/-- Split a character list at every occurrence of `sep`, Python
`str.split(sep)` for a one-character separator: no collapsing of adjacent
separators, and an empty input yields one empty field. -/
def splitChar (sep : Char) : List Char → List (List Char)
  | [] => [[]]
  | c :: t =>
      match splitChar sep t with
      | h :: r => if c = sep then [] :: h :: r else (c :: h) :: r
      | [] => [[c]]

/-- Python `line.split("|")`. -/
def pySplit (s : String) : List String := (splitChar '|' s.data).map (fun cs => ⟨cs⟩)

/-- Python `str.lower()` restricted to ASCII (`Char.toLower`), which covers
all data the program manipulates in the verified properties. -/
def pyLower (s : String) : String := ⟨s.data.map Char.toLower⟩

/-- Numeric value of a digit string (no sign), by left fold. -/
def natVal (cs : List Char) : Nat :=
  cs.foldl (fun acc c => acc * 10 + (c.toNat - 48)) 0

/-- Value of a nonempty string of decimal digits, `none` otherwise. -/
def digitsVal (cs : List Char) : Option Nat :=
  if cs = [] then none
  else if cs.all Char.isDigit then some (natVal cs) else none

/-- Python `int(s)` on an already-stripped string: optional sign, then
decimal digits.  (Python additionally accepts digit-grouping underscores and
non-ASCII digits; no verified property depends on those.) -/
def pyInt (s : String) : Option Int :=
  match s.data with
  | '+' :: rest => (digitsVal rest).map (fun n => (n : Int))
  | '-' :: rest => (digitsVal rest).map (fun n => -(n : Int))
  | cs => (digitsVal cs).map (fun n => (n : Int))

/-- Values Python `float(s)` can produce, as the program observes them:
NaN, the two infinities, and finite values (carried exactly as rationals;
see the module docstring on rounding). -/
inductive PyFloat : Type
  | nan : PyFloat
  | inf : PyFloat
  | neginf : PyFloat
  | fin : ℚ → PyFloat
  deriving DecidableEq

/-- Optional exponent sign followed by digits (the part after `e`/`E`). -/
def expVal : List Char → Option Int
  | '+' :: r => (digitsVal r).map (fun n => (n : Int))
  | '-' :: r => (digitsVal r).map (fun n => -(n : Int))
  | cs => (digitsVal cs).map (fun n => (n : Int))

/-- Mantissa of a float literal: digits with at most one decimal point and
at least one digit overall. -/
def mantissaVal (cs : List Char) : Option ℚ :=
  match splitChar '.' cs with
  | [ip] => (digitsVal ip).map (fun n => (n : ℚ))
  | [ip, fp] =>
      if (ip.all Char.isDigit && fp.all Char.isDigit) && (!ip.isEmpty || !fp.isEmpty) then
        some ((natVal ip : ℚ) + (natVal fp : ℚ) / (10 : ℚ) ^ fp.length)
      else none
  | _ => none

/-- Python `float(s)` on an already-stripped string: optional sign, then
(case-insensitively) `inf`/`infinity`, `nan`, or a decimal literal with
optional fraction and exponent.  (Underscores and hexadecimal floats are
not modelled; no verified property depends on them.) -/
def pyFloat (s : String) : Option PyFloat :=
  let cs := (pyLower s).data
  let signed : Bool × List Char :=
    match cs with
    | '+' :: r => (false, r)
    | '-' :: r => (true, r)
    | r => (false, r)
  let neg := signed.1
  let body := signed.2
  if body = "inf".data ∨ body = "infinity".data then
    some (if neg then PyFloat.neginf else PyFloat.inf)
  else if body = "nan".data then some PyFloat.nan
  else
    let q : Option ℚ :=
      match splitChar 'e' body with
      | [m] => mantissaVal m
      | [m, e] =>
          match mantissaVal m, expVal e with
          | some qm, some qe => some (qm * (10 : ℚ) ^ qe)
          | _, _ => none
      | _ => none
    q.map (fun v => PyFloat.fin (if neg then -v else v))

/-- Python chained comparison `0.0 <= rating <= 5.0` under IEEE semantics:
every comparison against NaN is false; `0.0 <= inf` holds but `inf <= 5.0`
fails; `0.0 <= -inf` already fails; for finite values it is the exact
rational comparison. -/
def pyInRange : PyFloat → Bool
  | PyFloat.fin q => decide (0 ≤ q) && decide (q ≤ 5)
  | _ => false

/-- Immutable record for a movie (Python dataclass `Movie`). -/
structure Movie : Type where
  movie_id : Int
  name_with_year : String
  genre : String
  deriving DecidableEq

/-- The `load_stats` counter dict, one field per key installed by
`Recommender._reset_stats`. -/
structure LoadStats : Type where
  movies_loaded : Nat
  movies_skipped_malformed : Nat
  movies_skipped_duplicate : Nat
  ratings_loaded : Nat
  ratings_skipped_malformed : Nat
  ratings_skipped_unknown_movie : Nat
  ratings_skipped_nonnumeric : Nat
  ratings_skipped_out_of_range : Nat
  ratings_skipped_duplicate_user_movie : Nat
  ratings_skipped_empty : Nat
  movies_skipped_empty : Nat
  deriving DecidableEq

/-- The all-zero counters produced by `Recommender._reset_stats`. -/
def initStats : LoadStats := ⟨0, 0, 0, 0, 0, 0, 0, 0, 0, 0, 0⟩

/-- The mutable state of a `Recommender` instance. -/
structure Recommender : Type where
  movies_by_id : List (Int × Movie)
  movies_by_name : List (String × Int)
  genre_lookup : List (String × String)
  ratings : List ((Int × String) × ℚ)
  load_stats : LoadStats
  deriving DecidableEq

/-- A fresh `Recommender()` (constructor `__init__`). -/
def initRec : Recommender := ⟨[], [], [], [], initStats⟩

/-- `Recommender.reset_all`: clear all five components. -/
def reset_all (_s : Recommender) : Recommender := ⟨[], [], [], [], initStats⟩

/-- One iteration of the parsing loop of `Recommender.load_movies`
(lines 126-162 of the source).  Unpacking `genre, mid_str, name = parts` is
moved in front of the effect-free emptiness and length tests so that the
fields are in scope; the `_` branches are unreachable under the preceding
field-count guard. -/
def processMovieLine (s : Recommender) (raw : String) : Recommender :=
  let line := pyStrip raw
  if line = "" then
    { s with load_stats :=
        { s.load_stats with movies_skipped_empty := s.load_stats.movies_skipped_empty + 1 } }
  else
    let parts := (pySplit line).map pyStrip
    if parts.length ≠ 3 then
      { s with load_stats :=
          { s.load_stats with movies_skipped_malformed := s.load_stats.movies_skipped_malformed + 1 } }
    else
      match parts with
      | [genre, mid_str, name] =>
        if parts.any (fun p => p == "") then
          { s with load_stats :=
              { s.load_stats with movies_skipped_malformed := s.load_stats.movies_skipped_malformed + 1 } }
        else if line.length > 2000 then
          { s with load_stats :=
              { s.load_stats with movies_skipped_malformed := s.load_stats.movies_skipped_malformed + 1 } }
        else
          match pyInt mid_str with
          | none =>
            { s with load_stats :=
                { s.load_stats with movies_skipped_malformed := s.load_stats.movies_skipped_malformed + 1 } }
          | some mid =>
            if (alookup s.movies_by_id mid).isSome ∨ (alookup s.movies_by_name name).isSome then
              { s with load_stats :=
                  { s.load_stats with movies_skipped_duplicate := s.load_stats.movies_skipped_duplicate + 1 } }
            else
              { s with
                movies_by_id := dinsert s.movies_by_id mid ⟨mid, name, genre⟩,
                movies_by_name := dinsert s.movies_by_name name mid,
                genre_lookup :=
                  if (alookup s.genre_lookup (pyLower genre)).isSome then s.genre_lookup
                  else dinsert s.genre_lookup (pyLower genre) genre,
                load_stats :=
                  { s.load_stats with movies_loaded := s.load_stats.movies_loaded + 1 } }
      | _ => s

/-- `Recommender.load_movies`: unconditionally clear the catalog, the genre
registry, the ratings and the counters, then (if the file exists) fold the
per-line parser over its lines.  The cleared state replaces every component
of the previous state, so it does not depend on `_s`. -/
def load_movies (_s : Recommender) (file : Option (List String)) : Recommender :=
  match file with
  | none => ⟨[], [], [], [], initStats⟩
  | some lines => lines.foldl processMovieLine ⟨[], [], [], [], initStats⟩

/-- One iteration of the parsing loop of `Recommender.load_ratings`
(lines 183-226 of the source).  As in `processMovieLine`, unpacking is moved
in front of the effect-free tests; the `_` branches are unreachable
(field-count guard, and `pyInRange` only holds for finite values). -/
def processRatingLine (s : Recommender) (raw : String) : Recommender :=
  let line := pyStrip raw
  if line = "" then
    { s with load_stats :=
        { s.load_stats with ratings_skipped_empty := s.load_stats.ratings_skipped_empty + 1 } }
  else
    let parts := (pySplit line).map pyStrip
    if parts.length ≠ 3 then
      { s with load_stats :=
          { s.load_stats with ratings_skipped_malformed := s.load_stats.ratings_skipped_malformed + 1 } }
    else
      match parts with
      | [name, rating_str, user_id] =>
        if parts.any (fun p => p == "") then
          { s with load_stats :=
              { s.load_stats with ratings_skipped_malformed := s.load_stats.ratings_skipped_malformed + 1 } }
        else if line.length > 2000 then
          { s with load_stats :=
              { s.load_stats with ratings_skipped_malformed := s.load_stats.ratings_skipped_malformed + 1 } }
        else
          match alookup s.movies_by_name name with
          | none =>
            { s with load_stats :=
                { s.load_stats with ratings_skipped_unknown_movie := s.load_stats.ratings_skipped_unknown_movie + 1 } }
          | some mid =>
            match pyFloat rating_str with
            | none =>
              { s with load_stats :=
                  { s.load_stats with ratings_skipped_nonnumeric := s.load_stats.ratings_skipped_nonnumeric + 1 } }
            | some rating =>
              if pyInRange rating then
                match rating with
                | PyFloat.fin q =>
                  if (alookup s.ratings (mid, user_id)).isSome then
                    { s with load_stats :=
                        { s.load_stats with ratings_skipped_duplicate_user_movie :=
                            s.load_stats.ratings_skipped_duplicate_user_movie + 1 } }
                  else
                    { s with
                      ratings := dinsert s.ratings (mid, user_id) q,
                      load_stats :=
                        { s.load_stats with ratings_loaded := s.load_stats.ratings_loaded + 1 } }
                | _ => s
              else
                { s with load_stats :=
                    { s.load_stats with ratings_skipped_out_of_range :=
                        s.load_stats.ratings_skipped_out_of_range + 1 } }
      | _ => s

/-- `Recommender.load_ratings`: fold the per-line parser over the file's
lines; a missing file leaves the state untouched (counters are NOT reset by
a rating load). -/
def load_ratings (s : Recommender) (file : Option (List String)) : Recommender :=
  match file with
  | none => s
  | some lines => lines.foldl processRatingLine s

/-- States reachable by sequences of load and reset operations (all query
operations are pure and do not change the state). -/
inductive Reachable : Recommender → Prop
  | init : Reachable initRec
  | loadMovies (s : Recommender) (file : Option (List String)) :
      Reachable s → Reachable (load_movies s file)
  | loadRatings (s : Recommender) (file : Option (List String)) :
      Reachable s → Reachable (load_ratings s file)
  | reset (s : Recommender) : Reachable s → Reachable (reset_all s)

/-- `Recommender._movie_aggregate`, first loop: the per-movie lists of
ratings, in dict insertion order. -/
def movie_aggregate_groups (s : Recommender) : List (Int × List ℚ) :=
  s.ratings.foldl (fun agg p => dsetdefault agg p.1.1 p.2) []

/-- `Recommender._movie_aggregate`: per-movie `(sum, count)`. -/
def movie_aggregate (s : Recommender) : List (Int × (ℚ × Nat)) :=
  (movie_aggregate_groups s).map (fun p => (p.1, (p.2.sum, p.2.length)))

/-- `Recommender._movie_stats`: per-movie `(average, count)` for movies with
at least one rating. -/
def movie_stats (s : Recommender) : List (Int × (ℚ × Nat)) :=
  (movie_aggregate s).filterMap
    (fun p => if p.2.2 > 0 then some (p.1, (p.2.1 / (p.2.2 : ℚ), p.2.2)) else none)

/-- A movie result row `(movie_id, name_with_year, avg, count, genre)`. -/
abbrev MRow : Type := Int × String × ℚ × Nat × String

/-- Python sort key `(-x[2], -x[3], x[1], x[0])` of the movie ranking, i.e.
`(-avg, -count, name, movie_id)`, valued in a lexicographic product. -/
def movieKey (x : MRow) : Lex (ℚ × Lex (ℤ × Lex (String × ℤ))) :=
  toLex (-x.2.2.1, toLex (-(x.2.2.2.1 : ℤ), toLex (x.2.1, x.1)))

/-- Order on movie rows induced by `movieKey`. -/
def movieRel (a b : MRow) : Prop := movieKey a ≤ movieKey b

instance : DecidableRel movieRel :=
  fun a b => inferInstanceAs (Decidable (movieKey a ≤ movieKey b))

instance : IsTotal MRow movieRel := ⟨fun a b => le_total (movieKey a) (movieKey b)⟩

instance : IsTrans MRow movieRel := ⟨fun _ _ _ h h₂ => le_trans h h₂⟩

/-- Genre of the catalog record with the given id.  At the call sites Python
reads `self.movies_by_id[mid].genre`, which raises `KeyError` on a missing
id; every rated id is in the catalog in all states the loaders produce, so
the `""` default is never observed there. -/
def genreOfMid (s : Recommender) (mid : Int) : String :=
  match alookup s.movies_by_id mid with
  | some m => m.genre
  | none => ""

/-- The `items` list of `top_n_movies` before sorting.  Python reads
`self.movies_by_id[mid]` (`KeyError` on a missing id); as in `genreOfMid`
the default row is never observed for loader-produced states. -/
def movieRows (s : Recommender) : List MRow :=
  (movie_stats s).map (fun p =>
    match alookup s.movies_by_id p.1 with
    | some m => (p.1, m.name_with_year, p.2.1, p.2.2, m.genre)
    | none => (p.1, "", p.2.1, p.2.2, ""))

/-- `Recommender.top_n_movies`. -/
def top_n_movies (s : Recommender) (n : Int) : List MRow :=
  (List.insertionSort movieRel (movieRows s)).take (max 0 n).toNat

/-- The `items` list of `top_n_movies_in_genre` before sorting: rows of the
rated movies whose stored genre label equals (case-sensitively) the resolved
label. -/
def genreMovieRows (s : Recommender) (genre : String) : List MRow :=
  (movie_stats s).filterMap (fun p =>
    match alookup s.movies_by_id p.1 with
    | some m =>
        if m.genre = genre then some (p.1, m.name_with_year, p.2.1, p.2.2, m.genre) else none
    | none => none)

/-- `Recommender.top_n_movies_in_genre`. -/
def top_n_movies_in_genre (s : Recommender) (genre_query : String) (n : Int) : List MRow :=
  if s.genre_lookup = [] then []
  else
    match alookup s.genre_lookup (pyLower genre_query) with
    | none => []
    | some genre =>
        (List.insertionSort movieRel (genreMovieRows s genre)).take (max 0 n).toNat

/-- A genre result row `(genre, avg, count)`. -/
abbrev GRow : Type := String × ℚ × Nat

/-- Python sort key `(-x[1], -x[2], x[0])` of the genre rankings. -/
def genreKey (x : GRow) : Lex (ℚ × Lex (ℤ × String)) :=
  toLex (-x.2.1, toLex (-(x.2.2 : ℤ), x.1))

/-- Order on genre rows induced by `genreKey`. -/
def genreRel (a b : GRow) : Prop := genreKey a ≤ genreKey b

instance : DecidableRel genreRel :=
  fun a b => inferInstanceAs (Decidable (genreKey a ≤ genreKey b))

instance : IsTotal GRow genreRel := ⟨fun a b => le_total (genreKey a) (genreKey b)⟩

instance : IsTrans GRow genreRel := ⟨fun _ _ _ h h₂ => le_trans h h₂⟩

/-- The `per_genre` dict of `top_n_genres`: per-genre lists of per-movie
averages, in dict insertion order. -/
def genreGroups (s : Recommender) : List (String × List ℚ) :=
  (movie_stats s).foldl (fun acc p => dsetdefault acc (genreOfMid s p.1) p.2.1) []

/-- The `rows` list of `top_n_genres` before sorting: per genre, the average
of per-movie averages and the count of contributing movies. -/
def genreRows (s : Recommender) : List GRow :=
  (genreGroups s).filterMap (fun p =>
    if p.2 ≠ [] then some (p.1, (p.2.sum / (p.2.length : ℚ), p.2.length)) else none)

/-- `Recommender.top_n_genres`. -/
def top_n_genres (s : Recommender) (n : Int) : List GRow :=
  (List.insertionSort genreRel (genreRows s)).take (max 0 n).toNat

/-- The `by_genre` dict of `user_top_genre`: this user's ratings grouped by
the rated movie's genre. -/
def userGenreGroups (s : Recommender) (user_id : String) : List (String × List ℚ) :=
  s.ratings.foldl
    (fun acc p => if p.1.2 = user_id then dsetdefault acc (genreOfMid s p.1.1) p.2 else acc) []

/-- `Recommender.user_top_genre`. -/
def user_top_genre (s : Recommender) (user_id : String) : Option GRow :=
  let rows := (userGenreGroups s user_id).filterMap (fun p =>
    if p.2 ≠ [] then some (p.1, (p.2.sum / (p.2.length : ℚ), p.2.length)) else none)
  match List.insertionSort genreRel rows with
  | [] => none
  | r :: _ => some r

/-- The `rated_mids` set of `recommend_movies`: ids of the movies this user
has rated.  Python builds a set used only for membership tests, so a list
with the same membership is a faithful model. -/
def ratedMids (s : Recommender) (user_id : String) : List Int :=
  (s.ratings.filter (fun p => p.1.2 == user_id)).map (fun p => p.1.1)

/-- `Recommender.recommend_movies` (the Python default `k = 3` is always
passed explicitly here). -/
def recommend_movies (s : Recommender) (user_id : String) (k : Int) : List MRow :=
  match user_top_genre s user_id with
  | none => []
  | some top =>
      let popular_in_genre := top_n_movies_in_genre s top.1 10000
      let recs := popular_in_genre.filter (fun row => !((ratedMids s user_id).contains row.1))
      recs.take (max 0 k).toNat

/-- Modelled from the spec (§4.3 recommendMovies step (b), which is not what
the code does): `topMoviesInGenre` over the resolved genre with an
effectively unbounded `n`, "covering every rated movie of the genre no
matter how many there are" — the full ranking with no truncation. -/
def topMoviesInGenre_unbounded (s : Recommender) (genre_query : String) : List MRow :=
  if s.genre_lookup = [] then []
  else
    match alookup s.genre_lookup (pyLower genre_query) with
    | none => []
    | some genre => List.insertionSort movieRel (genreMovieRows s genre)

/-- Modelled from the spec: `recommendMovies(u, k)` as described in §4.3 —
the user's top genre, the unbounded popularity ranking of that genre, the
already-rated filter, and the first `k` survivors (`k ≤ 0` empty). -/
def spec_recommend (s : Recommender) (user_id : String) (k : Int) : List MRow :=
  match user_top_genre s user_id with
  | none => []
  | some top =>
      ((topMoviesInGenre_unbounded s top.1).filter
        (fun row => !((ratedMids s user_id).contains row.1))).take (max 0 k).toNat

/-- Stage the movie parser reaches just before the duplicate check: the
`(genre, movie_id, name_with_year)` triple of a line that passes the
emptiness, field-count, field-emptiness, length and integer tests of
`load_movies` (the state plays no role up to this point). -/
def parsedMovie (raw : String) : Option (String × Int × String) :=
  let line := pyStrip raw
  if line = "" then none
  else
    let parts := (pySplit line).map pyStrip
    if parts.length ≠ 3 then none
    else
      match parts with
      | [genre, mid_str, name] =>
        if parts.any (fun p => p == "") then none
        else if line.length > 2000 then none
        else (pyInt mid_str).map (fun mid => (genre, mid, name))
      | _ => none

/-- Stage the rating parser reaches just before the deduplication check: the
`((movie_id, user_id), value)` pair of a line that passes the emptiness,
field-count, field-emptiness, length, known-movie, float and range tests of
`load_ratings` against the state `s`. -/
def parsedRating (s : Recommender) (raw : String) : Option ((Int × String) × ℚ) :=
  let line := pyStrip raw
  if line = "" then none
  else
    let parts := (pySplit line).map pyStrip
    if parts.length ≠ 3 then none
    else
      match parts with
      | [name, rating_str, user_id] =>
        if parts.any (fun p => p == "") then none
        else if line.length > 2000 then none
        else
          match alookup s.movies_by_name name with
          | none => none
          | some mid =>
            match pyFloat rating_str with
            | none => none
            | some rating =>
              if pyInRange rating then
                match rating with
                | PyFloat.fin q => some ((mid, user_id), q)
                | _ => none
              else none
      | _ => none

/-- Adjacency relation asserted of `top_n_movies` output: non-increasing in
average, then in count, then non-decreasing in name, then in id. -/
def movieAfter (a b : MRow) : Prop :=
  b.2.2.1 < a.2.2.1 ∨
    (a.2.2.1 = b.2.2.1 ∧
      (b.2.2.2.1 < a.2.2.2.1 ∨
        (a.2.2.2.1 = b.2.2.2.1 ∧
          (a.2.1 < b.2.1 ∨ (a.2.1 = b.2.1 ∧ a.1 ≤ b.1)))))

/-- Adjacency relation asserted of the genre rankings: non-increasing in
average, then in contributing count, then non-decreasing in label. -/
def genreAfter (a b : GRow) : Prop :=
  b.2.1 < a.2.1 ∨ (a.2.1 = b.2.1 ∧ (b.2.2 < a.2.2 ∨ (a.2.2 = b.2.2 ∧ a.1 ≤ b.1)))

/-- Per-movie averages of the rated movies whose genre is `g`, in rating
insertion order: the values `top_n_genres` aggregates for genre `g`. -/
def genreAvgList (s : Recommender) (g : String) : List ℚ :=
  (movie_stats s).filterMap (fun p => if genreOfMid s p.1 = g then some p.2.1 else none)

/-- Concrete state used by witnesses: three movies in two genres, four
ratings by three users; all per-movie and per-genre averages are distinct. -/
def Wit : Recommender :=
  ⟨[(1, ⟨1, "A", "Comedy"⟩), (2, ⟨2, "B", "Comedy"⟩), (3, ⟨3, "C", "Drama"⟩)],
   [("A", 1), ("B", 2), ("C", 3)],
   [("comedy", "Comedy"), ("drama", "Drama")],
   [((1, "u1"), 5), ((2, "u1"), 4), ((2, "u2"), 3), ((3, "u3"), 2)],
   initStats⟩

/-- Movie catalog of the large counterexample state: movies `0 … 10000`,
all in genre `"G"`. -/
def cMovies : List (Int × Movie) :=
  (List.range 10001).map (fun (j : Nat) => ((j : Int), ⟨(j : Int), "", "G"⟩))

/-- Ratings of the large counterexample state: movie `j` is rated once,
with value `-j`, by user `"u"` for `j < 10000` and by `"v"` for
`j = 10000`; thus the per-movie averages strictly decrease with `j`. -/
def cRatings : List ((Int × String) × ℚ) :=
  (List.range 10001).map
    (fun (j : Nat) => (((j : Int), if j < 10000 then "u" else "v"), -(j : ℚ)))

/-- A state whose single genre has 10001 rated movies: user `"u"` has rated
exactly the 10000 most popular ones. -/
def cState : Recommender := ⟨cMovies, [], [("g", "G")], cRatings, initStats⟩

/-- Row of movie `j` in the popularity ranking of `cState`. -/
def cRow (j : Nat) : MRow := ((j : Int), "", -(j : ℚ), 1, "G")

/-- The rating values user `"u"` contributed in `cState`. -/
def cUVals : List ℚ := (List.range 10000).map (fun (j : Nat) => -(j : ℚ))

/-- Values stored under key `k` in an association pair list, in order. -/
def selVals {κ α : Type} [DecidableEq κ] (l : List (κ × α)) (k : κ) : List α :=
  l.filterMap (fun p => if p.1 = k then some p.2 else none)

/-- Catalog well-formedness: ids are pairwise distinct, names are pairwise
distinct, the name index mirrors the catalog, and each record's stored id is
its key.  The first two conjuncts are the claimed invariant; the last two
are the bookkeeping that makes the induction go through. -/
def CatalogInv (s : Recommender) : Prop :=
  (s.movies_by_id.map Prod.fst).Nodup ∧
  (s.movies_by_id.map (fun p => p.2.name_with_year)).Nodup ∧
  s.movies_by_name = s.movies_by_id.map (fun p => (p.2.name_with_year, p.1)) ∧
  ∀ p ∈ s.movies_by_id, p.2.movie_id = p.1

/-- A raw movie line of untrimmed length 2001 whose trimmed form is the
5-character line `"g|1|n"`: 1996 trailing blanks follow a valid record. -/
def longLine : String := ⟨'g' :: '|' :: '1' :: '|' :: 'n' :: List.replicate 1996 ' '⟩

/-- A line of 2001 pipe characters: trimming does not shorten it, so its
trimmed length also exceeds 2000. -/
def pipeLine : String := ⟨List.replicate 2001 '|'⟩

/-! ### Basic lemmas about the loaders -/

theorem processMovieLine_ratings (s : Recommender) (raw : String) :
    (processMovieLine s raw).ratings = s.ratings := by
  unfold processMovieLine
  dsimp only
  repeat' split
  all_goals rfl

theorem foldl_processMovieLine_ratings :
    ∀ (lines : List String) (s : Recommender),
      (lines.foldl processMovieLine s).ratings = s.ratings
  | [], _ => rfl
  | l :: t, s => by
      rw [List.foldl_cons, foldl_processMovieLine_ratings t, processMovieLine_ratings]

/-- C1: every call to `load_movies`, from every starting state,
unconditionally clears the catalog, the genre registry, all ratings and the
statistics counters before parsing: the result does not depend on the prior
state at all, the rating set is empty afterwards — also when the reload
contributes zero new movies (missing source, or every line skipped) — and a
missing source leaves exactly the freshly cleared state. -/
theorem load_movies_clears_everything (s : Recommender) (file : Option (List String)) :
    load_movies s file = load_movies initRec file ∧
    (load_movies s file).ratings = [] ∧
    load_movies s none = initRec := by
  refine ⟨rfl, ?_, rfl⟩
  cases file with
  | none => rfl
  | some lines => exact foldl_processMovieLine_ratings lines _

theorem processRatingLine_catalog (s : Recommender) (raw : String) :
    (processRatingLine s raw).movies_by_id = s.movies_by_id ∧
    (processRatingLine s raw).movies_by_name = s.movies_by_name ∧
    (processRatingLine s raw).genre_lookup = s.genre_lookup := by
  unfold processRatingLine
  dsimp only
  repeat' split
  all_goals exact ⟨rfl, rfl, rfl⟩

/-! ### Association-list lemmas -/

theorem alookup_append_of_some {κ β : Type} [DecidableEq κ]
    {l₁ : List (κ × β)} {k : κ} {v : β} (l₂ : List (κ × β)) (h : alookup l₁ k = some v) :
    alookup (l₁ ++ l₂) k = some v := by
  induction l₁ with
  | nil => simp [alookup] at h
  | cons p t ih =>
      obtain ⟨k₀, v₀⟩ := p
      by_cases hk : k₀ = k
      · simpa [alookup, hk] using h
      · rw [alookup, if_neg hk] at h
        simpa [alookup, hk] using ih h

theorem alookup_append_of_none {κ β : Type} [DecidableEq κ]
    {l₁ : List (κ × β)} {k : κ} (l₂ : List (κ × β)) (h : alookup l₁ k = none) :
    alookup (l₁ ++ l₂) k = alookup l₂ k := by
  induction l₁ with
  | nil => simp [alookup]
  | cons p t ih =>
      obtain ⟨k₀, v₀⟩ := p
      by_cases hk : k₀ = k
      · simp [alookup, hk] at h
      · rw [alookup, if_neg hk] at h
        simpa [alookup, hk] using ih h

theorem alookup_isSome_iff {κ β : Type} [DecidableEq κ]
    (l : List (κ × β)) (k : κ) :
    (alookup l k).isSome ↔ k ∈ l.map Prod.fst := by
  induction l with
  | nil => simp [alookup]
  | cons p t ih =>
      obtain ⟨k₀, v₀⟩ := p
      by_cases hk : k₀ = k
      · simp [alookup, hk]
      · simp [alookup, hk, ih, Ne.symm hk]

theorem alookup_mem {κ β : Type} [DecidableEq κ]
    {l : List (κ × β)} {k : κ} {v : β} (h : alookup l k = some v) : (k, v) ∈ l := by
  induction l with
  | nil => simp [alookup] at h
  | cons p t ih =>
      obtain ⟨k₀, v₀⟩ := p
      by_cases hk : k₀ = k
      · rw [alookup, if_pos hk] at h
        subst hk
        obtain rfl : v₀ = v := by injection h
        exact List.mem_cons_self _ _
      · rw [alookup, if_neg hk] at h
        exact List.mem_cons_of_mem _ (ih h)

/-! ### C2: first-write-wins deduplication of ratings -/

theorem processRatingLine_preserves_rating {s : Recommender} {k : Int × String} {v : ℚ}
    (raw : String) (h : alookup s.ratings k = some v) :
    alookup (processRatingLine s raw).ratings k = some v := by
  unfold processRatingLine
  dsimp only
  repeat' split
  all_goals first
  | exact h
  | exact alookup_append_of_some _ h

theorem foldl_processRatingLine_preserves :
    ∀ (lines : List String) (s : Recommender) (k : Int × String) (v : ℚ),
      alookup s.ratings k = some v →
      alookup ((lines.foldl processRatingLine s)).ratings k = some v
  | [], _, _, _, h => h
  | l :: t, s, k, v, h => by
      rw [List.foldl_cons]
      exact foldl_processRatingLine_preserves t _ k v
        (processRatingLine_preserves_rating l h)

theorem processRatingLine_duplicate_skip {s : Recommender} {raw : String}
    {k : Int × String} {q v : ℚ}
    (hp : parsedRating s raw = some (k, q)) (h : alookup s.ratings k = some v) :
    processRatingLine s raw =
      { s with load_stats :=
          { s.load_stats with ratings_skipped_duplicate_user_movie :=
              s.load_stats.ratings_skipped_duplicate_user_movie + 1 } } := by
  unfold parsedRating at hp
  unfold processRatingLine
  dsimp only at hp ⊢
  repeat' split
  all_goals simp_all

/-- C2: only the first chronologically valid rating line for a
`(movieId, userId)` pair stores a value: a stored rating survives any
further rating load unchanged, and a later valid line carrying the same
pair (whatever its value) leaves the whole state unchanged except for one
increment of the duplicate-skip counter. -/
theorem first_rating_wins :
    (∀ (s : Recommender) (file : Option (List String)) (k : Int × String) (v : ℚ),
        alookup s.ratings k = some v →
        alookup (load_ratings s file).ratings k = some v) ∧
    (∀ (s : Recommender) (raw : String) (k : Int × String) (q v : ℚ),
        parsedRating s raw = some (k, q) →
        alookup s.ratings k = some v →
        processRatingLine s raw =
          { s with load_stats :=
              { s.load_stats with ratings_skipped_duplicate_user_movie :=
                  s.load_stats.ratings_skipped_duplicate_user_movie + 1 } }) := by
  constructor
  · intro s file k v h
    cases file with
    | none => exact h
    | some lines => exact foldl_processRatingLine_preserves lines s k v h
  · intro s raw k q v hp h
    exact processRatingLine_duplicate_skip hp h

/-- Witness for C2 at a concrete state: user `u1` has already rated movie 1
with value 5; the later line `"A|3|u1"` is a valid parse for the same pair
and is skipped as a duplicate, leaving the stored 5 in place. -/
theorem first_rating_wins_witness :
    alookup (load_ratings Wit (some ["A|3|u1"])).ratings (1, "u1") = some 5 ∧
    processRatingLine Wit "A|3|u1" =
      { Wit with load_stats :=
          { Wit.load_stats with ratings_skipped_duplicate_user_movie := 1 } } :=
  ⟨first_rating_wins.1 Wit (some ["A|3|u1"]) (1, "u1") 5 (by decide),
   first_rating_wins.2 Wit "A|3|u1" (1, "u1") 3 5 (by decide) (by decide)⟩

/-! ### C4: the oversized-line check -/

theorem processMovieLine_congr (s : Recommender) {raw raw' : String}
    (h : pyStrip raw = pyStrip raw') :
    processMovieLine s raw = processMovieLine s raw' := by
  unfold processMovieLine
  rw [h]

theorem processRatingLine_congr (s : Recommender) {raw raw' : String}
    (h : pyStrip raw = pyStrip raw') :
    processRatingLine s raw = processRatingLine s raw' := by
  unfold processRatingLine
  rw [h]

theorem dropWhile_replicate_append {p : Char → Bool} {a : Char} (hp : p a = true) :
    ∀ (n : Nat) (l : List Char),
      List.dropWhile p (List.replicate n a ++ l) = List.dropWhile p l
  | 0, _ => rfl
  | n + 1, l => by
      rw [List.replicate_succ, List.cons_append, List.dropWhile_cons]
      simp only [hp, if_true]
      exact dropWhile_replicate_append hp n l

theorem dropWhile_replicate_false {p : Char → Bool} {a : Char} (hp : p a = false) :
    ∀ (n : Nat), List.dropWhile p (List.replicate n a) = List.replicate n a
  | 0 => rfl
  | n + 1 => by
      rw [List.replicate_succ, List.dropWhile_cons]
      simp only [hp]
      rw [if_neg (by simp)]

theorem pyStrip_longLine : pyStrip longLine = "g|1|n" := by
  show String.mk _ = _
  rw [show longLine.data = ['g', '|', '1', '|', 'n'] ++ List.replicate 1996 ' ' from rfl]
  rw [show List.dropWhile isPySpace (['g', '|', '1', '|', 'n'] ++ List.replicate 1996 ' ') =
        ['g', '|', '1', '|', 'n'] ++ List.replicate 1996 ' ' by
      rw [List.cons_append, List.dropWhile_cons,
        show isPySpace 'g' = false from rfl]
      rw [if_neg (by simp)]]
  rw [List.reverse_append, List.reverse_replicate,
    dropWhile_replicate_append (show isPySpace ' ' = true from rfl) 1996]
  rfl

theorem longLine_length : longLine.length = 2001 := by
  show longLine.data.length = 2001
  rw [show longLine.data = ['g', '|', '1', '|', 'n'] ++ List.replicate 1996 ' ' from rfl]
  rw [List.length_append, List.length_replicate]
  rfl

/-- Counterexample to C4: a movie line whose untrimmed length is 2001 (so
greater than 2000) is nevertheless accepted — the malformed counter stays 0
and the record is stored — because the code applies the length check to the
trimmed line (`len(line)` with `line = raw.strip()`), which here has length
5. -/
theorem oversized_untrimmed_line_accepted :
    2000 < longLine.length ∧
    (load_movies initRec (some [longLine])).load_stats.movies_skipped_malformed = 0 ∧
    (load_movies initRec (some [longLine])).movies_by_id = [(1, ⟨1, "n", "g"⟩)] := by
  have h1 : load_movies initRec (some [longLine]) =
      processMovieLine ⟨[], [], [], [], initStats⟩ longLine := by
    simp only [load_movies, List.foldl_cons, List.foldl_nil]
  have h2 : processMovieLine ⟨[], [], [], [], initStats⟩ longLine =
      processMovieLine ⟨[], [], [], [], initStats⟩ "g|1|n" :=
    processMovieLine_congr _ (pyStrip_longLine.trans (by decide : pyStrip "g|1|n" = "g|1|n").symm)
  rw [h1, h2, longLine_length]
  refine ⟨by norm_num, by decide, by decide⟩

/-- C4 as amended: in both loaders the 2000-character bound is enforced on
the TRIMMED line: whenever the trimmed line is longer than 2000 characters
the line is rejected as a malformed-skip (it can only hit the field-count,
empty-field or length branch, all counted as malformed) and the state is
otherwise unchanged. -/
theorem oversized_trimmed_line_malformed (s : Recommender) (raw : String)
    (h : 2000 < (pyStrip raw).length) :
    processMovieLine s raw =
      { s with load_stats :=
          { s.load_stats with movies_skipped_malformed :=
              s.load_stats.movies_skipped_malformed + 1 } } ∧
    processRatingLine s raw =
      { s with load_stats :=
          { s.load_stats with ratings_skipped_malformed :=
              s.load_stats.ratings_skipped_malformed + 1 } } := by
  have hne : pyStrip raw ≠ "" := by
    intro he
    rw [he] at h
    simp [String.length] at h
  constructor
  · unfold processMovieLine
    dsimp only
    repeat' split
    all_goals first
    | rfl
    | (exfalso; omega)
    | (exact absurd (by assumption) hne)
    | (rename_i hnomatch
       obtain ⟨a, b, c, habc⟩ := List.length_eq_three.mp
         (show (List.map pyStrip (pySplit (pyStrip raw))).length = 3 by omega)
       exact absurd habc (hnomatch a b c))
  · unfold processRatingLine
    dsimp only
    repeat' split
    all_goals first
    | rfl
    | (exfalso; omega)
    | (exact absurd (by assumption) hne)
    | (rename_i hnomatch
       obtain ⟨a, b, c, habc⟩ := List.length_eq_three.mp
         (show (List.map pyStrip (pySplit (pyStrip raw))).length = 3 by omega)
       exact absurd habc (hnomatch a b c))

theorem pyStrip_pipeLine_length : (pyStrip pipeLine).length = 2001 := by
  show (String.mk _).length = 2001
  rw [show pipeLine.data = List.replicate 2001 '|' from rfl]
  rw [dropWhile_replicate_false (show isPySpace '|' = false from rfl), List.reverse_replicate,
    dropWhile_replicate_false (show isPySpace '|' = false from rfl), List.reverse_replicate]
  show (List.replicate 2001 '|').length = 2001
  rw [List.length_replicate]

/-- Witness for the amended C4 at a concrete line of 2001 pipes (trimmed
length 2001): both loaders count it as a malformed-skip. -/
theorem oversized_trimmed_line_malformed_witness :
    2000 < (pyStrip pipeLine).length ∧
    processMovieLine initRec pipeLine = ⟨[], [], [], [], ⟨0, 1, 0, 0, 0, 0, 0, 0, 0, 0, 0⟩⟩ ∧
    processRatingLine initRec pipeLine = ⟨[], [], [], [], ⟨0, 0, 0, 0, 1, 0, 0, 0, 0, 0, 0⟩⟩ :=
  ⟨by simp [pyStrip_pipeLine_length],
   (oversized_trimmed_line_malformed initRec pipeLine
     (by simp [pyStrip_pipeLine_length])).1,
   (oversized_trimmed_line_malformed initRec pipeLine
     (by simp [pyStrip_pipeLine_length])).2⟩

/-! ### C8: genre registry, first casing wins -/

theorem processMovieLine_genre_preserved {s : Recommender} {k lab : String}
    (raw : String) (h : alookup s.genre_lookup k = some lab) :
    alookup (processMovieLine s raw).genre_lookup k = some lab := by
  unfold processMovieLine
  dsimp only
  repeat' split
  all_goals first
  | exact h
  | exact alookup_append_of_some _ h

theorem foldl_processMovieLine_genre_preserved :
    ∀ (lines : List String) (s : Recommender) (k lab : String),
      alookup s.genre_lookup k = some lab →
      alookup ((lines.foldl processMovieLine s)).genre_lookup k = some lab
  | [], _, _, _, h => h
  | l :: t, s, k, lab, h => by
      rw [List.foldl_cons]
      exact foldl_processMovieLine_genre_preserved t _ k lab
        (processMovieLine_genre_preserved l h)

theorem foldl_processRatingLine_genre :
    ∀ (lines : List String) (s : Recommender),
      ((lines.foldl processRatingLine s)).genre_lookup = s.genre_lookup
  | [], _ => rfl
  | l :: t, s => by
      rw [List.foldl_cons, foldl_processRatingLine_genre t,
        (processRatingLine_catalog s l).2.2]

theorem processMovieLine_registers_genre {s : Recommender} {raw g name : String} {mid : Int}
    (hp : parsedMovie raw = some (g, mid, name))
    (hid : (alookup s.movies_by_id mid).isSome = false)
    (hname : (alookup s.movies_by_name name).isSome = false)
    (hkey : alookup s.genre_lookup (pyLower g) = none) :
    (processMovieLine s raw).genre_lookup = dinsert s.genre_lookup (pyLower g) g := by
  unfold parsedMovie at hp
  unfold processMovieLine
  dsimp only at hp ⊢
  repeat' split
  all_goals simp_all

/-- C8: the first accepted casing of a genre label is registered under its
case-folded key (part 3); once registered, a mapping of the registry
survives every further parsed movie line and every rating load unchanged
(parts 1 and 2); and a genre query is resolved only through its case-folded
form, so two queries equal up to case folding — in particular any casing of
a registered label and the canonical label itself — give identical
`top_n_movies_in_genre` results (part 4). -/
theorem genre_registry_first_casing_wins :
    (∀ (s : Recommender) (lines : List String) (k lab : String),
        alookup s.genre_lookup k = some lab →
        alookup ((lines.foldl processMovieLine s)).genre_lookup k = some lab) ∧
    (∀ (s : Recommender) (file : Option (List String)),
        (load_ratings s file).genre_lookup = s.genre_lookup) ∧
    (∀ (s : Recommender) (raw g : String) (mid : Int) (name : String),
        parsedMovie raw = some (g, mid, name) →
        (alookup s.movies_by_id mid).isSome = false →
        (alookup s.movies_by_name name).isSome = false →
        alookup s.genre_lookup (pyLower g) = none →
        (processMovieLine s raw).genre_lookup = dinsert s.genre_lookup (pyLower g) g) ∧
    (∀ (s : Recommender) (q₁ q₂ : String) (n : Int),
        pyLower q₁ = pyLower q₂ →
        top_n_movies_in_genre s q₁ n = top_n_movies_in_genre s q₂ n) := by
  refine ⟨?_, ?_, ?_, ?_⟩
  · intro s lines k lab h
    exact foldl_processMovieLine_genre_preserved lines s k lab h
  · intro s file
    cases file with
    | none => rfl
    | some lines => exact foldl_processRatingLine_genre lines s
  · intro s raw g mid name hp hid hname hkey
    exact processMovieLine_registers_genre hp hid hname hkey
  · intro s q₁ q₂ n h
    unfold top_n_movies_in_genre
    rw [h]

/-- Witness for C8 at the concrete state `Wit` (whose registry maps
`"comedy"` to the first-seen label `"Comedy"`). -/
theorem genre_registry_first_casing_wins_witness :
    alookup ((["Comedy|9|D"].foldl processMovieLine Wit)).genre_lookup "comedy" = some "Comedy" ∧
    (load_ratings Wit (some ["A|3|u9"])).genre_lookup = Wit.genre_lookup ∧
    (processMovieLine Wit "Horror|9|D").genre_lookup = dinsert Wit.genre_lookup "horror" "Horror" ∧
    top_n_movies_in_genre Wit "COMEDY" 2 = top_n_movies_in_genre Wit "Comedy" 2 :=
  ⟨genre_registry_first_casing_wins.1 Wit ["Comedy|9|D"] "comedy" "Comedy" (by decide),
   genre_registry_first_casing_wins.2.1 Wit (some ["A|3|u9"]),
   genre_registry_first_casing_wins.2.2.1 Wit "Horror|9|D" "Horror" 9 "D"
     (by decide) (by decide) (by decide) (by decide),
   genre_registry_first_casing_wins.2.2.2 Wit "COMEDY" "Comedy" 2 (by decide)⟩

/-! ### C6: recommendations never contain a movie the user rated -/

/-- C6: for every state, user and count, no row of `recommend_movies`
carries the id of a movie appearing in any rating authored by that user
(whatever the genre of that rating). -/
theorem recommendations_exclude_rated (s : Recommender) (u : String) (k : Int) :
    ∀ row ∈ recommend_movies s u k,
      ∀ e ∈ s.ratings, e.1.2 = u → row.1 ≠ e.1.1 := by
  intro row hrow e he heu heq
  unfold recommend_movies at hrow
  rcases htop : user_top_genre s u with _ | top
  · rw [htop] at hrow
    simp at hrow
  · rw [htop] at hrow
    dsimp only at hrow
    have h1 := List.mem_of_mem_take hrow
    have h2 := (List.mem_filter.mp h1).2
    have h3 : e.1.1 ∈ ratedMids s u :=
      List.mem_map.mpr ⟨e, List.mem_filter.mpr ⟨he, by simp [heu]⟩, rfl⟩
    rw [heq] at h2
    rw [Bool.not_eq_eq_eq_not, Bool.not_true, ← Bool.not_eq_true] at h2
    exact h2 (List.elem_iff.mpr h3)

section
attribute [local semireducible] Rat.add Rat.mul Rat.inv Rat.sub Rat.ofScientific

/-- Witness for C6: in `Wit`, user `u2` has rated movie 2 (rating
`((2, "u2"), 3)`); the recommendation row `(1, "A", 5, 1, "Comedy")` is in
`u2`'s recommendations, and the theorem yields that its id differs from the
rated movie's id. -/
theorem recommendations_exclude_rated_witness : (1 : Int) ≠ 2 :=
  recommendations_exclude_rated Wit "u2" 3 (1, "A", 5, 1, "Comedy") (by decide)
    ((2, "u2"), 3) (by decide) (by decide)

end

/-! ### C5: catalog id and name injectivity -/

theorem catalogInv_empty : CatalogInv ⟨[], [], [], [], initStats⟩ :=
  ⟨List.Pairwise.nil, List.Pairwise.nil, rfl, by simp⟩

theorem catalogInv_insert {s : Recommender} {mid : Int} {name genre : String}
    (gl : List (String × String)) (rt : List ((Int × String) × ℚ)) (st : LoadStats)
    (h : CatalogInv s)
    (hmid : (alookup s.movies_by_id mid).isSome = false)
    (hname : (alookup s.movies_by_name name).isSome = false) :
    CatalogInv
      ⟨dinsert s.movies_by_id mid ⟨mid, name, genre⟩,
       dinsert s.movies_by_name name mid, gl, rt, st⟩ := by
  obtain ⟨hid, hnm, hbridge, hkey⟩ := h
  have hmid' : mid ∉ s.movies_by_id.map Prod.fst := by
    rw [← alookup_isSome_iff, hmid]
    simp
  have hnm' : name ∉ s.movies_by_id.map (fun p => p.2.name_with_year) := by
    intro hmem
    have hmem' : name ∈ s.movies_by_name.map Prod.fst := by
      rw [hbridge, List.map_map]
      simpa using hmem
    rw [← alookup_isSome_iff] at hmem'
    rw [hmem'] at hname
    simp at hname
  refine ⟨?_, ?_, ?_, ?_⟩
  · unfold dinsert
    rw [List.map_append]
    simp [List.nodup_append, hid, hmid']
  · unfold dinsert
    rw [List.map_append]
    simp [List.nodup_append, hnm, hnm']
  · unfold dinsert
    rw [List.map_append, hbridge]
    rfl
  · unfold dinsert
    intro p hp
    rcases List.mem_append.mp hp with hp | hp
    · exact hkey p hp
    · simp at hp
      rw [hp]

theorem processMovieLine_catalogInv {s : Recommender} (raw : String)
    (h : CatalogInv s) : CatalogInv (processMovieLine s raw) := by
  unfold processMovieLine
  dsimp only
  repeat' split
  all_goals try exact h
  all_goals refine catalogInv_insert _ _ _ h ?_ ?_
  all_goals simp_all [Bool.not_eq_true]

theorem foldl_processMovieLine_catalogInv :
    ∀ (lines : List String) (s : Recommender),
      CatalogInv s → CatalogInv (lines.foldl processMovieLine s)
  | [], _, h => h
  | l :: t, s, h => by
      rw [List.foldl_cons]
      exact foldl_processMovieLine_catalogInv t _ (processMovieLine_catalogInv l h)

theorem foldl_processRatingLine_movies :
    ∀ (lines : List String) (s : Recommender),
      ((lines.foldl processRatingLine s)).movies_by_id = s.movies_by_id ∧
      ((lines.foldl processRatingLine s)).movies_by_name = s.movies_by_name
  | [], _ => ⟨rfl, rfl⟩
  | l :: t, s => by
      rw [List.foldl_cons]
      obtain ⟨h₁, h₂⟩ := foldl_processRatingLine_movies t (processRatingLine s l)
      exact ⟨h₁.trans (processRatingLine_catalog s l).1,
        h₂.trans (processRatingLine_catalog s l).2.1⟩

theorem reachable_catalogInv {s : Recommender} (h : Reachable s) : CatalogInv s := by
  induction h with
  | init => exact catalogInv_empty
  | loadMovies s' file _ _ =>
      cases file with
      | none => exact catalogInv_empty
      | some lines =>
          exact foldl_processMovieLine_catalogInv lines _ catalogInv_empty
  | loadRatings s' file _ ih =>
      cases file with
      | none => exact ih
      | some lines =>
          obtain ⟨h₁, h₂⟩ := foldl_processRatingLine_movies lines s'
          obtain ⟨i₁, i₂, i₃, i₄⟩ := ih
          refine ⟨?_, ?_, ?_, ?_⟩
          · rw [show (load_ratings s' (some lines)).movies_by_id = s'.movies_by_id from h₁]
            exact i₁
          · rw [show (load_ratings s' (some lines)).movies_by_id = s'.movies_by_id from h₁]
            exact i₂
          · rw [show (load_ratings s' (some lines)).movies_by_id = s'.movies_by_id from h₁,
              show (load_ratings s' (some lines)).movies_by_name = s'.movies_by_name from h₂]
            exact i₃
          · rw [show (load_ratings s' (some lines)).movies_by_id = s'.movies_by_id from h₁]
            exact i₄
  | reset s' _ _ => exact catalogInv_empty

theorem processMovieLine_duplicate_skip {s : Recommender} {raw g name : String} {mid : Int}
    (hp : parsedMovie raw = some (g, mid, name))
    (hdup : (alookup s.movies_by_id mid).isSome ∨ (alookup s.movies_by_name name).isSome) :
    processMovieLine s raw =
      { s with load_stats :=
          { s.load_stats with movies_skipped_duplicate :=
              s.load_stats.movies_skipped_duplicate + 1 } } := by
  unfold parsedMovie at hp
  unfold processMovieLine
  dsimp only at hp ⊢
  repeat' split
  all_goals simp_all

/-- C5: in every state reachable by loads and resets, the catalog's movie
ids are pairwise distinct and its `name_with_year` strings are pairwise
distinct; and a parsed movie line whose id or name collides with the
current catalog is rejected as a duplicate-skip, leaving everything but
that counter unchanged. -/
theorem catalog_injective :
    (∀ s : Recommender, Reachable s →
        (s.movies_by_id.map Prod.fst).Nodup ∧
        (s.movies_by_id.map (fun p => p.2.name_with_year)).Nodup) ∧
    (∀ (s : Recommender) (raw g : String) (mid : Int) (name : String),
        parsedMovie raw = some (g, mid, name) →
        ((alookup s.movies_by_id mid).isSome ∨ (alookup s.movies_by_name name).isSome) →
        processMovieLine s raw =
          { s with load_stats :=
              { s.load_stats with movies_skipped_duplicate :=
                  s.load_stats.movies_skipped_duplicate + 1 } }) := by
  constructor
  · intro s hs
    obtain ⟨h₁, h₂, _, _⟩ := reachable_catalogInv hs
    exact ⟨h₁, h₂⟩
  · intro s raw g mid name hp hdup
    exact processMovieLine_duplicate_skip hp hdup

/-- Witness for C5: a load containing an id collision and a name collision
yields a catalog with distinct ids and names, and a concrete colliding line
at `Wit` is counted as a duplicate-skip. -/
theorem catalog_injective_witness :
    (((load_movies initRec
        (some ["Comedy|1|A", "Comedy|1|B", "Drama|2|A", "Drama|2|C"])).movies_by_id.map
          Prod.fst).Nodup ∧
      ((load_movies initRec
        (some ["Comedy|1|A", "Comedy|1|B", "Drama|2|A", "Drama|2|C"])).movies_by_id.map
          (fun p => p.2.name_with_year)).Nodup) ∧
    processMovieLine Wit "g|1|Z" =
      { Wit with load_stats :=
          { Wit.load_stats with movies_skipped_duplicate := 1 } } :=
  ⟨catalog_injective.1 _ (Reachable.loadMovies _ _ Reachable.init),
   catalog_injective.2 Wit "g|1|Z" "g" 1 "Z" (by decide) (Or.inl (by decide))⟩

/-! ### C10: NaN and infinities parse but fail the range check -/

theorem pyFloat_special {r : String}
    (h : pyLower r = "nan" ∨ pyLower r = "inf" ∨ pyLower r = "-inf") :
    ∃ v, pyFloat r = some v ∧ pyInRange v = false := by
  rcases h with h | h | h
  · refine ⟨PyFloat.nan, ?_, rfl⟩
    unfold pyFloat
    dsimp only
    rw [h]
    decide
  · refine ⟨PyFloat.inf, ?_, rfl⟩
    unfold pyFloat
    dsimp only
    rw [h]
    decide
  · refine ⟨PyFloat.neginf, ?_, rfl⟩
    unfold pyFloat
    dsimp only
    rw [h]
    decide

/-- C10: a well-formed rating line referencing a known movie whose rating
text is `nan`, `inf` or `-inf` in any casing passes float parsing (so it is
NOT a nonnumeric-skip), fails the inclusive range check `0.0 <= r <= 5.0`
(for NaN both comparisons are false), and is counted as an
out-of-range-skip; the stored ratings and every other counter are
unchanged. -/
theorem nan_inf_counted_out_of_range (s : Recommender) (raw name rstr uid : String)
    (mid : Int)
    (hsplit : (pySplit (pyStrip raw)).map pyStrip = [name, rstr, uid])
    (hne : pyStrip raw ≠ "")
    (hlen : (pyStrip raw).length ≤ 2000)
    (hname : name ≠ "") (hrne : rstr ≠ "") (huid : uid ≠ "")
    (hknown : alookup s.movies_by_name name = some mid)
    (hcase : pyLower rstr = "nan" ∨ pyLower rstr = "inf" ∨ pyLower rstr = "-inf") :
    processRatingLine s raw =
      { s with load_stats :=
          { s.load_stats with ratings_skipped_out_of_range :=
              s.load_stats.ratings_skipped_out_of_range + 1 } } := by
  obtain ⟨v, hv, hvr⟩ := pyFloat_special hcase
  unfold processRatingLine
  dsimp only
  repeat' split
  all_goals first
  | rfl
  | (exfalso; omega)
  | simp_all

/-- Witness for C10: at `Wit` the line `"A|NaN|u9"` references the known
movie `"A"` and is counted as a single out-of-range-skip. -/
theorem nan_inf_counted_out_of_range_witness :
    processRatingLine Wit "A|NaN|u9" =
      { Wit with load_stats :=
          { Wit.load_stats with ratings_skipped_out_of_range := 1 } } :=
  nan_inf_counted_out_of_range Wit "A|NaN|u9" "A" "NaN" "u9" 1
    (by decide) (by decide) (by decide) (by decide) (by decide) (by decide)
    (by decide) (by decide)

/-! ### Grouping lemmas: folds of `dsetdefault` model Python dict grouping -/

section Grouping

variable {κ α : Type} [DecidableEq κ] [DecidableEq α]

theorem alookup_dsetdefault (l : List (κ × List α)) (k₀ : κ) (v : α) (k : κ) :
    alookup (dsetdefault l k₀ v) k =
      if k₀ = k then some ((alookup l k).getD [] ++ [v]) else alookup l k := by
  induction l with
  | nil =>
      by_cases h : k₀ = k
      · simp [dsetdefault, alookup, h]
      · simp [dsetdefault, alookup, h]
  | cons p t ih =>
      obtain ⟨k₁, vs⟩ := p
      by_cases h1 : k₁ = k₀
      · subst h1
        by_cases h2 : k₁ = k
        · simp [dsetdefault, alookup, h2]
        · simp [dsetdefault, alookup, h2]
      · by_cases h2 : k₁ = k
        · subst h2
          have h3 : ¬k₀ = k₁ := fun he => h1 he.symm
          simp [dsetdefault, alookup, h1, h3]
        · simp [dsetdefault, alookup, h1, h2, ih]

theorem selVals_cons (p : κ × α) (t : List (κ × α)) (k : κ) :
    selVals (p :: t) k = if p.1 = k then p.2 :: selVals t k else selVals t k := by
  by_cases h : p.1 = k
  · simp [selVals, h]
  · simp [selVals, h]

theorem groupFold_lookup_some :
    ∀ (l : List (κ × α)) (acc : List (κ × List α)) (k : κ) (vs : List α),
      alookup acc k = some vs →
      alookup (l.foldl (fun a p => dsetdefault a p.1 p.2) acc) k =
        some (vs ++ selVals l k)
  | [], _, k, vs, h => by simp [selVals, h]
  | p :: t, acc, k, vs, h => by
      rw [List.foldl_cons, selVals_cons]
      by_cases hk : p.1 = k
      · have h2 : alookup (dsetdefault acc p.1 p.2) k = some (vs ++ [p.2]) := by
          rw [alookup_dsetdefault, if_pos hk, h]
          rfl
        rw [groupFold_lookup_some t _ k _ h2, if_pos hk, List.append_assoc,
          List.singleton_append]
      · have h2 : alookup (dsetdefault acc p.1 p.2) k = some vs := by
          rw [alookup_dsetdefault, if_neg hk, h]
        rw [groupFold_lookup_some t _ k _ h2, if_neg hk]

theorem groupFold_lookup_none :
    ∀ (l : List (κ × α)) (acc : List (κ × List α)) (k : κ),
      alookup acc k = none →
      alookup (l.foldl (fun a p => dsetdefault a p.1 p.2) acc) k =
        if selVals l k = [] then none else some (selVals l k)
  | [], _, k, h => by simp [selVals, h]
  | p :: t, acc, k, h => by
      rw [List.foldl_cons, selVals_cons]
      by_cases hk : p.1 = k
      · have h2 : alookup (dsetdefault acc p.1 p.2) k = some [p.2] := by
          rw [alookup_dsetdefault, if_pos hk, h]
          rfl
        rw [groupFold_lookup_some t _ k _ h2, if_pos hk]
        simp
      · have h2 : alookup (dsetdefault acc p.1 p.2) k = none := by
          rw [alookup_dsetdefault, if_neg hk, h]
        rw [groupFold_lookup_none t _ k h2, if_neg hk]

theorem keys_dsetdefault_mem (acc : List (κ × List α)) (k₀ : κ) (v : α) (k : κ) :
    k ∈ (dsetdefault acc k₀ v).map Prod.fst ↔ k ∈ acc.map Prod.fst ∨ k = k₀ := by
  induction acc with
  | nil => simp [dsetdefault]
  | cons p t ih =>
      obtain ⟨k₁, vs⟩ := p
      by_cases h : k₁ = k₀
      · subst h
        simp [dsetdefault]
        tauto
      · simp [dsetdefault, h, ih]
        tauto

theorem groupFold_keys_mem :
    ∀ (l : List (κ × α)) (acc : List (κ × List α)) (k : κ),
      k ∈ ((l.foldl (fun a p => dsetdefault a p.1 p.2) acc).map Prod.fst) ↔
        k ∈ acc.map Prod.fst ∨ ∃ p ∈ l, p.1 = k
  | [], _, k => by simp
  | p :: t, acc, k => by
      rw [List.foldl_cons, groupFold_keys_mem t _ k, keys_dsetdefault_mem]
      simp only [List.mem_cons]
      constructor
      · rintro (⟨h | h⟩ | ⟨q, hq, hqk⟩)
        · exact Or.inl h
        · exact Or.inr ⟨p, Or.inl rfl, h.symm⟩
        · exact Or.inr ⟨q, Or.inr hq, hqk⟩
      · rintro (h | ⟨q, hq | hq, hqk⟩)
        · exact Or.inl (Or.inl h)
        · subst hq
          exact Or.inl (Or.inr hqk.symm)
        · exact Or.inr ⟨q, hq, hqk⟩

theorem dsetdefault_vals_ne_nil {acc : List (κ × List α)} {k₀ : κ} {v : α}
    (h : ∀ p ∈ acc, p.2 ≠ ([] : List α)) :
    ∀ p ∈ dsetdefault acc k₀ v, p.2 ≠ ([] : List α) := by
  induction acc with
  | nil =>
      intro p hp
      simp [dsetdefault] at hp
      rw [hp]
      simp
  | cons q t ih =>
      obtain ⟨k₁, vs⟩ := q
      intro p hp
      by_cases h1 : k₁ = k₀
      · subst h1
        simp only [dsetdefault, if_pos rfl] at hp
        rcases List.mem_cons.mp hp with hp | hp
        · rw [hp]
          simp
        · exact h p (List.mem_cons_of_mem _ hp)
      · simp only [dsetdefault, if_neg h1] at hp
        rcases List.mem_cons.mp hp with hp | hp
        · rw [hp]
          exact h (k₁, vs) (List.mem_cons_self _ _)
        · exact ih (fun q hq => h q (List.mem_cons_of_mem _ hq)) p hp

theorem groupFold_vals_ne_nil :
    ∀ (l : List (κ × α)) (acc : List (κ × List α)),
      (∀ p ∈ acc, p.2 ≠ ([] : List α)) →
      ∀ p ∈ (l.foldl (fun a p => dsetdefault a p.1 p.2) acc), p.2 ≠ ([] : List α)
  | [], _, h => h
  | p :: t, acc, h => by
      rw [List.foldl_cons]
      exact groupFold_vals_ne_nil t _ (dsetdefault_vals_ne_nil h)

theorem keys_dsetdefault (acc : List (κ × List α)) (k₀ : κ) (v : α) :
    (dsetdefault acc k₀ v).map Prod.fst =
      if (alookup acc k₀).isSome then acc.map Prod.fst else acc.map Prod.fst ++ [k₀] := by
  induction acc with
  | nil => simp [dsetdefault, alookup]
  | cons p t ih =>
      obtain ⟨k₁, vs⟩ := p
      by_cases h : k₁ = k₀
      · subst h
        simp [dsetdefault, alookup]
      · simp only [dsetdefault, if_neg h, alookup, List.map_cons, ih]
        by_cases h2 : (alookup t k₀).isSome
        · simp [h, h2]
        · simp [h, h2]

theorem groupFold_keys_nodup :
    ∀ (l : List (κ × α)) (acc : List (κ × List α)),
      (acc.map Prod.fst).Nodup →
      ((l.foldl (fun a p => dsetdefault a p.1 p.2) acc).map Prod.fst).Nodup
  | [], _, h => h
  | p :: t, acc, h => by
      rw [List.foldl_cons]
      refine groupFold_keys_nodup t _ ?_
      rw [keys_dsetdefault]
      by_cases h2 : (alookup acc p.1).isSome
      · rw [if_pos h2]
        exact h
      · rw [if_neg h2]
        have : p.1 ∉ acc.map Prod.fst := by
          rw [← alookup_isSome_iff]
          exact h2
        simp [List.nodup_append, h, this]

theorem alookup_of_mem_nodup {β : Type} :
    ∀ {l : List (κ × β)} {k : κ} {vs : β},
      (l.map Prod.fst).Nodup → (k, vs) ∈ l → alookup l k = some vs := by
  intro l
  induction l with
  | nil =>
      intro k vs _ h
      simp at h
  | cons p t ih =>
      intro k vs hnd hmem
      obtain ⟨k₁, vs₁⟩ := p
      rw [List.map_cons, List.nodup_cons] at hnd
      rcases List.mem_cons.mp hmem with hmem | hmem
      · injection hmem with h1 h2
        subst h1
        simp [alookup, h2]
      · have hk : k₁ ≠ k := fun he =>
          hnd.1 (by rw [he]; exact List.mem_map.mpr ⟨(k, vs), hmem, rfl⟩)
        rw [alookup, if_neg hk]
        exact ih hnd.2 hmem

theorem foldl_dsetdefault_map {β : Type} (f : β → κ) (g : β → α) :
    ∀ (l : List β) (acc : List (κ × List α)),
      l.foldl (fun a b => dsetdefault a (f b) (g b)) acc =
        (l.map (fun b => (f b, g b))).foldl (fun a p => dsetdefault a p.1 p.2) acc
  | [], _ => rfl
  | b :: t, acc => by
      rw [List.map_cons, List.foldl_cons, List.foldl_cons]
      exact foldl_dsetdefault_map f g t _

theorem foldl_guarded {β γ : Type} (q : β → Prop) [DecidablePred q] (f : γ → β → γ) :
    ∀ (l : List β) (acc : γ),
      l.foldl (fun a b => if q b then f a b else a) acc =
        (l.filter (fun b => decide (q b))).foldl f acc
  | [], _ => rfl
  | b :: t, acc => by
      by_cases h : q b
      · rw [List.foldl_cons, if_pos h, List.filter_cons_of_pos (by simp [h]),
          List.foldl_cons]
        exact foldl_guarded q f t _
      · rw [List.foldl_cons, if_neg h, List.filter_cons_of_neg (by simp [h])]
        exact foldl_guarded q f t _

end Grouping

/-! ### C3: the top_n_movies ranking -/

theorem movieRel_iff (a b : MRow) : movieRel a b ↔ movieAfter a b := by
  unfold movieRel movieAfter movieKey
  rw [Prod.Lex.le_iff, Prod.Lex.le_iff, Prod.Lex.le_iff]
  simp [neg_lt_neg_iff, neg_inj, Nat.cast_lt, Nat.cast_inj]

theorem genreRel_iff (a b : GRow) : genreRel a b ↔ genreAfter a b := by
  unfold genreRel genreAfter genreKey
  rw [Prod.Lex.le_iff, Prod.Lex.le_iff]
  simp [neg_lt_neg_iff, neg_inj, Nat.cast_lt, Nat.cast_inj]

theorem filterMap_eq_map_of_forall {β γ : Type} (f : β → Option γ) (g : β → γ) :
    ∀ (l : List β), (∀ a ∈ l, f a = some (g a)) → l.filterMap f = l.map g
  | [], _ => rfl
  | a :: t, h => by
      rw [List.filterMap_cons, h a (List.mem_cons_self _ _), List.map_cons,
        filterMap_eq_map_of_forall f g t (fun b hb => h b (List.mem_cons_of_mem _ hb))]

theorem movie_aggregate_groups_eq (s : Recommender) :
    movie_aggregate_groups s =
      ((s.ratings.map (fun e => (e.1.1, e.2))).foldl
        (fun a p => dsetdefault a p.1 p.2) []) :=
  foldl_dsetdefault_map _ _ _ _

theorem movie_aggregate_groups_vals_ne_nil (s : Recommender) :
    ∀ p ∈ movie_aggregate_groups s, p.2 ≠ ([] : List ℚ) := by
  rw [movie_aggregate_groups_eq]
  exact groupFold_vals_ne_nil _ [] (by simp)

theorem movie_stats_eq (s : Recommender) :
    movie_stats s = (movie_aggregate_groups s).map
      (fun p => (p.1, (p.2.sum / (p.2.length : ℚ), p.2.length))) := by
  unfold movie_stats movie_aggregate
  rw [List.filterMap_map]
  apply filterMap_eq_map_of_forall
  intro p hp
  have hlen : 0 < p.2.length :=
    List.length_pos.mpr (movie_aggregate_groups_vals_ne_nil s p hp)
  simp [hlen]

theorem movie_stats_keys (s : Recommender) :
    (movie_stats s).map Prod.fst = (movie_aggregate_groups s).map Prod.fst := by
  rw [movie_stats_eq, List.map_map]
  apply List.map_congr_left
  intro p _
  rfl

theorem movieRows_keys (s : Recommender) :
    (movieRows s).map Prod.fst = (movie_stats s).map Prod.fst := by
  unfold movieRows
  rw [List.map_map]
  apply List.map_congr_left
  intro p _
  show (match alookup s.movies_by_id p.1 with
    | some m => (p.1, m.name_with_year, p.2.1, p.2.2, m.genre)
    | none => (p.1, "", p.2.1, p.2.2, "")).1 = p.1
  cases alookup s.movies_by_id p.1 <;> rfl

theorem movieRows_mem_iff (s : Recommender) (mid : Int) :
    (∃ r ∈ movieRows s, r.1 = mid) ↔ ∃ e ∈ s.ratings, e.1.1 = mid := by
  have h1 : (∃ r ∈ movieRows s, r.1 = mid) ↔ mid ∈ (movieRows s).map Prod.fst := by
    rw [List.mem_map]
  rw [h1, movieRows_keys, movie_stats_keys, movie_aggregate_groups_eq,
    groupFold_keys_mem]
  constructor
  · rintro (h | ⟨p, hp, hpk⟩)
    · simp at h
    · obtain ⟨e, he, rfl⟩ := List.mem_map.mp hp
      exact ⟨e, he, hpk⟩
  · rintro ⟨e, he, hek⟩
    exact Or.inr ⟨(e.1.1, e.2), List.mem_map.mpr ⟨e, he, rfl⟩, hek⟩

/-- C3: `top_n_movies` treats `n ≤ 0` as empty; it is by construction the
first `max 0 n` entries of the sorted row list; that sorted list is a
permutation of the unsorted rows, whose movie ids are exactly the movies
with at least one rating; and every adjacent output pair is non-increasing
in average, then in count, then non-decreasing in name, then in id. -/
theorem top_movies_ranking (s : Recommender) (n : Int) :
    (n ≤ 0 → top_n_movies s n = []) ∧
    top_n_movies s n = (List.insertionSort movieRel (movieRows s)).take (max 0 n).toNat ∧
    (List.insertionSort movieRel (movieRows s)).Perm (movieRows s) ∧
    (∀ mid : Int, (∃ r ∈ movieRows s, r.1 = mid) ↔ ∃ e ∈ s.ratings, e.1.1 = mid) ∧
    List.Chain' movieAfter (top_n_movies s n) := by
  refine ⟨?_, rfl, List.perm_insertionSort _ _, movieRows_mem_iff s, ?_⟩
  · intro hn
    unfold top_n_movies
    rw [max_eq_left hn]
    rfl
  · have hs : List.Sorted movieRel (List.insertionSort movieRel (movieRows s)) :=
      List.sorted_insertionSort movieRel (movieRows s)
    have hp : List.Pairwise movieAfter (top_n_movies s n) :=
      (hs.take).imp (fun h => (movieRel_iff _ _).mp h)
    exact hp.chain'

/-- Witness for C3 at `Wit` with `n = 0`: the `n ≤ 0` hypothesis is
discharged and the output is empty (hence trivially ordered). -/
theorem top_movies_ranking_witness :
    top_n_movies Wit 0 = [] ∧ List.Chain' movieAfter (top_n_movies Wit 0) :=
  ⟨(top_movies_ranking Wit 0).1 le_rfl, (top_movies_ranking Wit 0).2.2.2.2⟩

/-! ### C9: the top_n_genres ranking -/

theorem genreGroups_eq (s : Recommender) :
    genreGroups s =
      ((movie_stats s).map (fun p => (genreOfMid s p.1, p.2.1))).foldl
        (fun a p => dsetdefault a p.1 p.2) [] :=
  foldl_dsetdefault_map _ _ _ _

theorem selVals_genre (s : Recommender) (g : String) :
    selVals ((movie_stats s).map (fun p => (genreOfMid s p.1, p.2.1))) g =
      genreAvgList s g := by
  unfold selVals genreAvgList
  rw [List.filterMap_map]
  rfl

theorem genreGroups_lookup (s : Recommender) (g : String) :
    alookup (genreGroups s) g =
      if genreAvgList s g = [] then none else some (genreAvgList s g) := by
  rw [genreGroups_eq, groupFold_lookup_none _ [] g (by rw [alookup]), selVals_genre]

theorem genreGroups_keys_nodup (s : Recommender) :
    ((genreGroups s).map Prod.fst).Nodup := by
  rw [genreGroups_eq]
  exact groupFold_keys_nodup _ [] (by simp)

theorem genreRows_char (s : Recommender) :
    ∀ row ∈ genreRows s,
      genreAvgList s row.1 ≠ [] ∧
      row.2.1 = (genreAvgList s row.1).sum / ((genreAvgList s row.1).length : ℚ) ∧
      row.2.2 = (genreAvgList s row.1).length := by
  intro row hrow
  unfold genreRows at hrow
  obtain ⟨p, hp, hpe⟩ := List.mem_filterMap.mp hrow
  by_cases hne : p.2 = []
  · simp [hne] at hpe
  · rw [if_pos hne] at hpe
    injection hpe with hpe
    have hlp : alookup (genreGroups s) p.1 = some p.2 :=
      alookup_of_mem_nodup (genreGroups_keys_nodup s) hp
    rw [genreGroups_lookup] at hlp
    by_cases hg : genreAvgList s p.1 = []
    · rw [if_pos hg] at hlp
      cases hlp
    · rw [if_neg hg] at hlp
      injection hlp with hlp
      rw [← hpe, ← hlp]
      exact ⟨hg, rfl, rfl⟩

theorem genreRows_keys_iff (s : Recommender) (g : String) :
    g ∈ (genreRows s).map Prod.fst ↔ genreAvgList s g ≠ [] := by
  constructor
  · intro hg
    obtain ⟨row, hrow, hfst⟩ := List.mem_map.mp hg
    have := (genreRows_char s row hrow).1
    rw [hfst] at this
    exact this
  · intro hg
    have hlp : alookup (genreGroups s) g = some (genreAvgList s g) := by
      rw [genreGroups_lookup, if_neg hg]
    have hmem : (g, genreAvgList s g) ∈ genreGroups s := alookup_mem hlp
    refine List.mem_map.mpr ⟨(g, (genreAvgList s g).sum / ((genreAvgList s g).length : ℚ),
      (genreAvgList s g).length), ?_, rfl⟩
    unfold genreRows
    exact List.mem_filterMap.mpr ⟨(g, genreAvgList s g), hmem, by rw [if_pos hg]⟩

/-- C9: `top_n_genres` treats `n ≤ 0` as empty; it is the `max 0 n`-prefix
of the sorted genre rows; the sorted rows are a permutation of the unsorted
ones; a genre appears iff it has at least one rated movie; each row carries
the UNWEIGHTED average of that genre's per-movie averages together with the
count of contributing movies; and adjacent output pairs are non-increasing
in average, then in contributing count, then non-decreasing in label. -/
theorem top_genres_ranking (s : Recommender) (n : Int) :
    (n ≤ 0 → top_n_genres s n = []) ∧
    top_n_genres s n = (List.insertionSort genreRel (genreRows s)).take (max 0 n).toNat ∧
    (List.insertionSort genreRel (genreRows s)).Perm (genreRows s) ∧
    (∀ g : String, g ∈ (genreRows s).map Prod.fst ↔ genreAvgList s g ≠ []) ∧
    (∀ row ∈ genreRows s,
        row.2.1 = (genreAvgList s row.1).sum / ((genreAvgList s row.1).length : ℚ) ∧
        row.2.2 = (genreAvgList s row.1).length) ∧
    List.Chain' genreAfter (top_n_genres s n) := by
  refine ⟨?_, rfl, List.perm_insertionSort _ _, genreRows_keys_iff s,
    fun row hrow => ⟨(genreRows_char s row hrow).2.1, (genreRows_char s row hrow).2.2⟩, ?_⟩
  · intro hn
    unfold top_n_genres
    rw [max_eq_left hn]
    rfl
  · have hs : List.Sorted genreRel (List.insertionSort genreRel (genreRows s)) :=
      List.sorted_insertionSort genreRel (genreRows s)
    have hp : List.Pairwise genreAfter (top_n_genres s n) :=
      (hs.take).imp (fun h => (genreRel_iff _ _).mp h)
    exact hp.chain'

section
attribute [local semireducible] Rat.add Rat.mul Rat.inv Rat.sub Rat.ofScientific

/-- Witness for C9 at `Wit` with `n = 0` and the concrete Drama row: the
`n ≤ 0` hypothesis and the row-membership hypothesis are both discharged on
concrete data. -/
theorem top_genres_ranking_witness :
    top_n_genres Wit 0 = [] ∧
    ((2 : ℚ) = (genreAvgList Wit "Drama").sum / ((genreAvgList Wit "Drama").length : ℚ) ∧
      (1 : Nat) = (genreAvgList Wit "Drama").length) :=
  ⟨(top_genres_ranking Wit 0).1 le_rfl,
   (top_genres_ranking Wit 0).2.2.2.2.1 ("Drama", 2, 1) (by decide)⟩

end

/-! ### C7: the 10000-entry cap in recommend_movies -/

theorem dsetdefault_of_none {κ α : Type} [DecidableEq κ]
    {l : List (κ × List α)} {k : κ} (v : α) (h : alookup l k = none) :
    dsetdefault l k v = l ++ [(k, [v])] := by
  induction l with
  | nil => rfl
  | cons p t ih =>
      obtain ⟨k₁, vs⟩ := p
      by_cases hk : k₁ = k
      · rw [alookup, if_pos hk] at h
        cases h
      · rw [alookup, if_neg hk] at h
        rw [dsetdefault, if_neg hk, ih h, List.cons_append]

theorem groupFold_of_distinct {κ α : Type} [DecidableEq κ] :
    ∀ (l : List (κ × α)) (acc : List (κ × List α)),
      (∀ p ∈ l, alookup acc p.1 = none) →
      (l.map Prod.fst).Nodup →
      l.foldl (fun a p => dsetdefault a p.1 p.2) acc =
        acc ++ l.map (fun p => (p.1, [p.2]))
  | [], acc, _, _ => by simp
  | p :: t, acc, hacc, hnd => by
      rw [List.foldl_cons,
        dsetdefault_of_none p.2 (hacc p (List.mem_cons_self _ _))]
      rw [List.map_cons, List.nodup_cons] at hnd
      have hacc' : ∀ q ∈ t, alookup (acc ++ [(p.1, [p.2])]) q.1 = none := by
        intro q hq
        rw [alookup_append_of_none _ (hacc q (List.mem_cons_of_mem _ hq))]
        have hne : p.1 ≠ q.1 := fun he => hnd.1 (he ▸ List.mem_map.mpr ⟨q, hq, rfl⟩)
        simp [alookup, hne]
      rw [groupFold_of_distinct t _ hacc' hnd.2, List.append_assoc,
        List.map_cons, List.singleton_append]

theorem groupFold_const_key {κ α : Type} [DecidableEq κ] (g : κ) :
    ∀ (l : List (κ × α)) (vs : List α),
      (∀ p ∈ l, p.1 = g) →
      l.foldl (fun a p => dsetdefault a p.1 p.2) [(g, vs)] =
        [(g, vs ++ l.map Prod.snd)]
  | [], vs, _ => by simp
  | p :: t, vs, h => by
      rw [List.foldl_cons]
      have hp : p.1 = g := h p (List.mem_cons_self _ _)
      have h1 : dsetdefault [(g, vs)] p.1 p.2 = [(g, vs ++ [p.2])] := by
        rw [hp]
        simp [dsetdefault]
      rw [h1, groupFold_const_key g t _ (fun q hq => h q (List.mem_cons_of_mem _ hq)),
        List.map_cons, List.append_assoc, List.singleton_append]

theorem groupFold_const_key_nil {κ α : Type} [DecidableEq κ] (g : κ)
    (l : List (κ × α)) (hl : ∀ p ∈ l, p.1 = g) (hne : l ≠ []) :
    l.foldl (fun a p => dsetdefault a p.1 p.2) [] = [(g, l.map Prod.snd)] := by
  cases l with
  | nil => exact absurd rfl hne
  | cons p t =>
      rw [List.foldl_cons]
      have hp : p.1 = g := hl p (List.mem_cons_self _ _)
      have h1 : dsetdefault ([] : List (κ × List _)) p.1 p.2 = [(g, [p.2])] := by
        rw [dsetdefault, hp]
      rw [h1, groupFold_const_key g t _ (fun q hq => hl q (List.mem_cons_of_mem _ hq)),
        List.map_cons, List.singleton_append]

theorem alookup_map_of_mem {β γ : Type} [DecidableEq γ] (key : Nat → γ) (f : Nat → β)
    (hinj : ∀ a b, key a = key b → a = b) :
    ∀ (l : List Nat) (j : Nat), j ∈ l →
      alookup (l.map (fun i => (key i, f i))) (key j) = some (f j)
  | [], j, h => by simp at h
  | i :: t, j, h => by
      rw [List.map_cons, alookup]
      by_cases he : key i = key j
      · rw [if_pos he, hinj _ _ he]
      · rw [if_neg he]
        rcases List.mem_cons.mp h with rfl | h
        · exact absurd rfl he
        · exact alookup_map_of_mem key f hinj t j h

theorem cState_eq : cState = ⟨cMovies, [], [("g", "G")], cRatings, initStats⟩ := rfl

theorem cState_movies : cState.movies_by_id = cMovies := by
  rw [cState_eq]

theorem cState_ratings : cState.ratings = cRatings := by
  rw [cState_eq]

theorem alookup_cMovies {j : Nat} (hj : j < 10001) :
    alookup cMovies ((j : Nat) : Int) = some ⟨(j : Int), "", "G"⟩ := by
  unfold cMovies
  exact alookup_map_of_mem (fun i : Nat => ((i : Nat) : Int))
    (fun i : Nat => (⟨(i : Int), "", "G"⟩ : Movie))
    (fun a b h => by
      have h1 : ((a : Nat) : Int) = ((b : Nat) : Int) := h
      exact_mod_cast h1)
    (List.range 10001) j (List.mem_range.mpr hj)

theorem genreOfMid_cState {j : Nat} (hj : j < 10001) :
    genreOfMid cState ((j : Nat) : Int) = "G" := by
  unfold genreOfMid
  rw [cState_movies, alookup_cMovies hj]

theorem cRatings_pairs :
    cRatings.map (fun e => (e.1.1, e.2)) =
      (List.range 10001).map (fun j => (((j : Nat) : Int), -(j : ℚ))) := by
  unfold cRatings
  rw [List.map_map]
  apply List.map_congr_left
  intro j _
  rfl

theorem movie_stats_cState :
    movie_stats cState =
      (List.range 10001).map (fun j => (((j : Nat) : Int), (-(j : ℚ), 1))) := by
  have hnd : ((((List.range 10001).map
      (fun j => (((j : Nat) : Int), -(j : ℚ))))).map Prod.fst).Nodup := by
    rw [List.map_map]
    refine (List.nodup_range 10001).map ?_
    intro a b h
    simpa using h
  rw [movie_stats_eq, movie_aggregate_groups_eq,
    cState_ratings, cRatings_pairs,
    groupFold_of_distinct _ [] (fun p _ => rfl) hnd,
    List.nil_append, List.map_map, List.map_map]
  apply List.map_congr_left
  intro j _
  simp

theorem genreMovieRows_cState :
    genreMovieRows cState "G" = (List.range 10001).map cRow := by
  unfold genreMovieRows
  simp only [cState_movies]
  rw [movie_stats_cState, List.filterMap_map]
  apply filterMap_eq_map_of_forall
  intro j hj
  have hm := alookup_cMovies (List.mem_range.mp hj)
  dsimp only [Function.comp]
  rw [hm]
  simp [cRow]

theorem sorted_cRows (n : Nat) :
    List.Pairwise movieRel ((List.range n).map cRow) := by
  refine List.pairwise_map.mpr ?_
  refine (List.pairwise_lt_range n).imp ?_
  intro a b hab
  refine (movieRel_iff _ _).mpr (Or.inl ?_)
  show -(b : ℚ) < -(a : ℚ)
  exact neg_lt_neg (by exact_mod_cast hab)

theorem sort_cRows (n : Nat) :
    List.insertionSort movieRel ((List.range n).map cRow) = (List.range n).map cRow :=
  List.Sorted.insertionSort_eq (sorted_cRows n)

theorem cState_genre : cState.genre_lookup = [("g", "G")] := by
  rw [cState_eq]

theorem cRatings_filter_u (q : (Int × String) × ℚ → Bool)
    (hq : ∀ x, q x = (x.1.2 == "u")) :
    cRatings.filter q =
      (List.range 10000).map (fun (j : Nat) => ((((j : Nat) : Int), "u"), -(j : ℚ))) := by
  unfold cRatings
  rw [List.filter_map, show (10001 : Nat) = 10000 + 1 from rfl, List.range_succ,
    List.filter_append]
  have h1 : (List.range 10000).filter
      (q ∘ fun (j : Nat) => ((((j : Nat) : Int), if j < 10000 then "u" else "v"), -(j : ℚ))) =
      List.range 10000 := by
    apply List.filter_eq_self.mpr
    intro j hj
    have hj' := List.mem_range.mp hj
    simp [Function.comp, hq, if_pos hj']
  have h2 : ([10000] : List Nat).filter
      (q ∘ fun (j : Nat) => ((((j : Nat) : Int), if j < 10000 then "u" else "v"), -(j : ℚ))) =
      [] := by
    simp [Function.comp, hq]
  rw [h1, h2, List.append_nil]
  apply List.map_congr_left
  intro j hj
  have hj' := List.mem_range.mp hj
  simp [if_pos hj']

theorem ratedMids_cState :
    ratedMids cState "u" = (List.range 10000).map (fun (j : Nat) => ((j : Nat) : Int)) := by
  unfold ratedMids
  rw [cState_ratings, cRatings_filter_u _ (fun x => rfl), List.map_map]
  apply List.map_congr_left
  intro j _
  rfl

theorem userGenreGroups_cState :
    userGenreGroups cState "u" = [("G", cUVals)] := by
  unfold userGenreGroups
  rw [cState_ratings,
    foldl_guarded (fun p : (Int × String) × ℚ => p.1.2 = "u")
      (fun a p => dsetdefault a (genreOfMid cState p.1.1) p.2) cRatings [],
    cRatings_filter_u _ (fun x => by by_cases h : x.1.2 = "u" <;> simp [h]),
    foldl_dsetdefault_map (fun p : (Int × String) × ℚ => genreOfMid cState p.1.1)
      Prod.snd, List.map_map]
  have hkeys : ((List.range 10000).map
      ((fun p : (Int × String) × ℚ => (genreOfMid cState p.1.1, p.2)) ∘
        fun (j : Nat) => ((((j : Nat) : Int), "u"), -(j : ℚ)))) =
      (List.range 10000).map (fun (j : Nat) => (("G", -(j : ℚ)) : String × ℚ)) := by
    apply List.map_congr_left
    intro j hj
    have hj' := List.mem_range.mp hj
    show (genreOfMid cState ((j : Nat) : Int), -(j : ℚ)) = ("G", -(j : ℚ))
    rw [genreOfMid_cState (Nat.lt_trans hj' (by decide))]
  have hconst : ∀ p ∈ (List.range 10000).map
      (fun (j : Nat) => (("G", -(j : ℚ)) : String × ℚ)), p.1 = "G" := by
    intro p hp
    obtain ⟨j, _, rfl⟩ := List.mem_map.mp hp
    rfl
  have hne : (List.range 10000).map
      (fun (j : Nat) => (("G", -(j : ℚ)) : String × ℚ)) ≠ [] := by simp
  rw [hkeys, groupFold_const_key_nil "G" _ hconst hne, List.map_map]
  have hvals : (List.range 10000).map
      (Prod.snd ∘ fun (j : Nat) => (("G", -(j : ℚ)) : String × ℚ)) = cUVals := by
    unfold cUVals
    apply List.map_congr_left
    intro j _
    rfl
  rw [hvals]

theorem user_top_genre_eq (s : Recommender) (u : String) :
    user_top_genre s u =
      (let rows := (userGenreGroups s u).filterMap (fun p =>
        if p.2 ≠ [] then some (p.1, (p.2.sum / (p.2.length : ℚ), p.2.length)) else none)
      match List.insertionSort genreRel rows with
      | [] => none
      | r :: _ => some r) := rfl

theorem user_top_genre_cState :
    user_top_genre cState "u" =
      some ("G", cUVals.sum / (cUVals.length : ℚ), cUVals.length) := by
  rw [user_top_genre_eq]
  rw [userGenreGroups_cState]
  have hne : cUVals ≠ [] := by
    unfold cUVals
    simp
  have hfm : ∀ (g : String) (vs : List ℚ), vs ≠ [] →
      ([(g, vs)] : List (String × List ℚ)).filterMap (fun p =>
        if p.2 ≠ [] then some (p.1, (p.2.sum / (p.2.length : ℚ), p.2.length)) else none) =
      [(g, (vs.sum / (vs.length : ℚ), vs.length))] := by
    intro g vs h
    rw [List.filterMap_cons]
    rw [if_pos h]
    rfl
  rw [hfm "G" cUVals hne]
  rfl

theorem top_in_genre_cState :
    top_n_movies_in_genre cState "G" 10000 = (List.range 10000).map cRow := by
  unfold top_n_movies_in_genre
  rw [cState_genre]
  rw [if_neg (by simp : ¬([(("g" : String), ("G" : String))] = []))]
  rw [show alookup [(("g" : String), ("G" : String))] (pyLower "G") = some "G" by decide]
  dsimp only
  rw [genreMovieRows_cState, sort_cRows,
    show ((max 0 (10000 : Int)).toNat) = 10000 by decide,
    show (10001 : Nat) = 10000 + 1 from rfl, List.range_succ, List.map_append,
    List.take_left' (by simp)]

theorem mem_ratedMids_cState {j : Nat} (hj : j < 10000) :
    ((j : Nat) : Int) ∈ ratedMids cState "u" := by
  rw [ratedMids_cState]
  exact List.mem_map.mpr ⟨j, List.mem_range.mpr hj, rfl⟩

theorem not_mem_ratedMids_cState :
    ¬ (((10000 : Nat) : Int) ∈ ratedMids cState "u") := by
  rw [ratedMids_cState]
  intro h
  obtain ⟨j, hj, he⟩ := List.mem_map.mp h
  have hje : j = 10000 := by exact_mod_cast he
  exact absurd (hje ▸ List.mem_range.mp hj) (lt_irrefl _)

theorem filter_rated_nil :
    ((List.range 10000).map cRow).filter
      (fun row => !((ratedMids cState "u").contains row.1)) = [] := by
  apply List.filter_eq_nil_iff.mpr
  intro row hrow
  obtain ⟨j, hj, rfl⟩ := List.mem_map.mp hrow
  have hm := mem_ratedMids_cState (List.mem_range.mp hj)
  simp only [cRow, Bool.not_eq_true', Bool.not_eq_false]
  exact List.elem_eq_true_of_mem hm

theorem filter_spec_single :
    (((List.range 10001).map cRow).filter
      (fun row => !((ratedMids cState "u").contains row.1))) = [cRow 10000] := by
  rw [show (10001 : Nat) = 10000 + 1 from rfl, List.range_succ, List.map_append,
    List.filter_append, filter_rated_nil, List.nil_append]
  have hc : ((ratedMids cState "u").contains (cRow 10000).1) = false := by
    rw [show (cRow 10000).1 = ((10000 : Nat) : Int) from rfl]
    exact Bool.eq_false_iff.mpr
      (fun h => not_mem_ratedMids_cState (List.mem_of_elem_eq_true h))
  simp [hc]
  exact not_mem_ratedMids_cState

theorem recommend_movies_eq (s : Recommender) (u : String) (k : Int) :
    recommend_movies s u k =
      (match user_top_genre s u with
      | none => []
      | some top =>
          let popular_in_genre := top_n_movies_in_genre s top.1 10000
          let recs := popular_in_genre.filter (fun row => !((ratedMids s u).contains row.1))
          recs.take (max 0 k).toNat) := rfl

theorem spec_recommend_eq (s : Recommender) (u : String) (k : Int) :
    spec_recommend s u k =
      (match user_top_genre s u with
      | none => []
      | some top =>
          ((topMoviesInGenre_unbounded s top.1).filter
            (fun row => !((ratedMids s u).contains row.1))).take (max 0 k).toNat) := rfl

theorem spec_top_in_genre_cState :
    topMoviesInGenre_unbounded cState "G" = (List.range 10001).map cRow := by
  unfold topMoviesInGenre_unbounded
  rw [cState_genre]
  rw [if_neg (by simp : ¬([(("g" : String), ("G" : String))] = []))]
  rw [show alookup [(("g" : String), ("G" : String))] (pyLower "G") = some "G" by decide]
  dsimp only
  rw [genreMovieRows_cState, sort_cRows]

/-- C7 counterexample: in `cState` one genre holds 10001 rated movies and
user `"u"` has rated exactly the 10000 most popular of them.  The code caps
the per-genre ranking at `n = 10000` before filtering, so
`recommend_movies cState "u" 1` is empty, while the spec's unbounded
ranking leaves movie 10000 as the top recommendation. -/
theorem recommend_cap_counterexample :
    recommend_movies cState "u" 1 ≠ spec_recommend cState "u" 1 ∧
    recommend_movies cState "u" 1 = [] ∧
    spec_recommend cState "u" 1 = [cRow 10000] := by
  have hrec : recommend_movies cState "u" 1 = [] := by
    rw [recommend_movies_eq, user_top_genre_cState]
    dsimp only
    rw [top_in_genre_cState, filter_rated_nil]
    rfl
  have hspec : spec_recommend cState "u" 1 = [cRow 10000] := by
    rw [spec_recommend_eq, user_top_genre_cState]
    dsimp only
    rw [spec_top_in_genre_cState, filter_spec_single]
    rfl
  refine ⟨?_, hrec, hspec⟩
  rw [hrec, hspec]
  simp

/-- C7 (amended): `recommend_movies` fetches the genre ranking through
`top_n_movies_in_genre` with the cap `n = 10000`, not with an unbounded
`n`.  Whenever every registered genre label indexes at most 10000 rated
movies the cap is invisible and the code agrees with the spec's
description (unbounded ranking, filter out the user's rated ids, first
`max 0 k` survivors); the agreement is unconditional in field access,
ordering and truncation, and fails only beyond the cap. -/
theorem recommend_matches_spec_within_cap (s : Recommender) (u : String) (k : Int)
    (h : ∀ g ∈ s.genre_lookup.map Prod.snd, (genreMovieRows s g).length ≤ 10000) :
    recommend_movies s u k = spec_recommend s u k := by
  rw [recommend_movies_eq, spec_recommend_eq]
  cases hu : user_top_genre s u with
  | none => rfl
  | some top =>
      have hx : top_n_movies_in_genre s top.1 10000 = topMoviesInGenre_unbounded s top.1 := by
        unfold top_n_movies_in_genre topMoviesInGenre_unbounded
        by_cases hgl : s.genre_lookup = []
        · rw [if_pos hgl, if_pos hgl]
        · rw [if_neg hgl, if_neg hgl]
          cases hg : alookup s.genre_lookup (pyLower top.1) with
          | none => rfl
          | some genre =>
              dsimp only
              have hmem : genre ∈ s.genre_lookup.map Prod.snd :=
                List.mem_map.mpr ⟨(pyLower top.1, genre), alookup_mem hg, rfl⟩
              have hlen : (List.insertionSort movieRel (genreMovieRows s genre)).length
                  ≤ 10000 := by
                rw [(List.perm_insertionSort movieRel (genreMovieRows s genre)).length_eq]
                exact h genre hmem
              rw [show ((max 0 (10000 : Int)).toNat) = 10000 by decide,
                List.take_of_length_le hlen]
      dsimp only
      rw [hx]

/-- Witness for the amended C7 theorem at the small state `Wit`: its two
genres index far fewer than 10000 movies, and code and spec agree there. -/
theorem recommend_matches_spec_within_cap_witness :
    (∀ g ∈ Wit.genre_lookup.map Prod.snd, (genreMovieRows Wit g).length ≤ 10000) ∧
    recommend_movies Wit "u1" 3 = spec_recommend Wit "u1" 3 :=
  ⟨by decide, recommend_matches_spec_within_cap Wit "u1" 3 (by decide)⟩

end MovieRec
